import Mathlib

/-!
Verification of the proctor process-inspection engine (Go sources under
`plib/` and `proctor/cmd/`) against its natural-language specification.

The Go code is shallowly embedded: results of operating-system calls
(directory listings, symlink resolution, file reads, cache writes) are
reified as fields of an explicit environment record, and every Go
function that consumes them becomes a pure Lean function over that
record.  Go `int` is 64-bit on the targeted platforms; `strconv.Atoi`
is modelled with its documented clamping behaviour on range errors.
A Go `panic` is modelled as an explicit outcome, distinct from a
returned `error`.
-/

set_option maxRecDepth 4000

/-- Outcome classes of the Go `os` error predicates used by the code:
`os.IsPermission`, `os.IsNotExist`, and everything else. -/
inductive OsErr where
  | perm
  | notExist
  | other
  deriving DecidableEq, Repr

/-- Maximum value of Go's 64-bit `int`. -/
def int64Max : Int := 9223372036854775807

/-- Minimum value of Go's 64-bit `int`. -/
def int64Min : Int := -9223372036854775808

/-- All characters are decimal digits and the list is non-empty:
the syntactic requirement of `strconv.ParseInt` base 10 after the sign. -/
def decDigits? : List Char → Option Nat
  | [] => none
  | cs => cs.foldlM (fun acc c => if c.isDigit then some (acc * 10 + (c.toNat - '0'.toNat)) else none) 0

/-- Strip the optional leading sign, as `strconv.ParseInt` does:
returns (negative?, remaining characters). -/
def splitSign : List Char → Bool × List Char
  | '+' :: rest => (false, rest)
  | '-' :: rest => (true, rest)
  | cs => (false, cs)

/-- `strconv.Atoi`: returns the parsed value and an error flag.
On a syntax error the value is `0`; on a range error (the token is a
well-formed integer that does not fit in 64 bits) the value is the
clamped extreme of `int64`, as documented for `strconv.ParseInt`. -/
def goAtoi (s : String) : Int × Bool :=
  let signed := splitSign s.toList
  match decDigits? signed.2 with
  | none => (0, true)
  | some n =>
    let v : Int := if signed.1 then -(n : Int) else (n : Int)
    if v > int64Max then (int64Max, true)
    else if v < int64Min then (int64Min, true)
    else (v, false)

/-- The value kept by the Go code when it discards `Atoi`'s error
(`ps.ID, _ = strconv.Atoi(stat)`). -/
def goAtoiVal (s : String) : Int := (goAtoi s).1

/-- Whether `strconv.Atoi` reports an error for this token. -/
def goAtoiErr (s : String) : Bool := (goAtoi s).2

/-- Hexadecimal rendering of a natural number, lowercase, as produced by
Go's `fmt.Sprintf("%x", …)`. -/
def natHex (n : Nat) : String := String.mk (Nat.toDigits 16 n)

/-- Go's `fmt.Sprintf("%x", d)` for a (possibly negative) `int`. -/
def goHex (d : Int) : String :=
  if d < 0 then "-" ++ natHex d.natAbs else natHex d.toNat

/-- `ConvertToHexMemoryAddress` (plib/linux.go): `strconv.Atoi` with the
error discarded, then `fmt.Sprintf("0x%x", d)`. -/
def ConvertToHexMemoryAddress (decimalAddr : String) : String :=
  "0x" ++ goHex (goAtoiVal decimalAddr)

/-- Character-level splitting groups: `strings.Split` for a
one-character separator (the only shapes the code uses: `" "` and the
path separator `"/"`). -/
def splitChars (sep : Char) : List Char → List (List Char)
  | [] => [[]]
  | c :: cs =>
    if c = sep then [] :: splitChars sep cs
    else
      match splitChars sep cs with
      | [] => [[c]]
      | g :: gs => (c :: g) :: gs

/-- Go's `strings.Split(s, sep)` for a one-character `sep`: always
returns at least one (possibly empty) token. -/
def goSplit (sep : Char) (s : String) : List String :=
  (splitChars sep s.toList).map String.mk

/-- SHA-256 (`crypto/sha256`) is an external primitive; it is modelled as
an opaque tag around the hashed bytes.  No claim depends on the digest's
numeric value, only on when hashing happens and on what is fed to it. -/
def sha256Hex (data : String) : String := "sha256:" ++ data

/-- Sentinel `permDenied = "PERM_DENIED"` (plib constants). -/
def permDenied : String := "PERM_DENIED"

/-- Sentinel `statError = "ERROR_READING_STAT"` (plib constants). -/
def statError : String := "ERROR_READING_STAT"

/-- `ProcessStat` (plib): the typed form of one procfs stat record.
Field order and names follow the Go struct; `Signal` is an integer
type in the source, so `ExitSignal` is an `Int` here. -/
structure ProcessStat where
  ID : Int
  FileName : String
  State : String
  ParentID : Int
  ProcessGroup : Int
  SessionID : Int
  TTY : Int
  TTYProcessGroup : Int
  TaskFlags : String
  MinorFaultQuantity : Int
  MinorFaultWithChildQuantity : Int
  MajorFaultQuantity : Int
  MajorFaultWithChildQuantity : Int
  UserModeTime : Int
  KernalTime : Int
  UserModeTimeWithChild : Int
  KernalTimeWithChild : Int
  Priority : Int
  Nice : Int
  ThreadQuantity : Int
  ItRealValue : Int
  StartTime : Int
  VirtualMemSize : Int
  ResidentSetMemSize : Int
  RSSByteLimit : Int
  StartCode : String
  EndCode : String
  StartStack : String
  ExtendedStackPointerAddress : Int
  ExtendedInstructionPointer : Int
  SignalPendingQuantity : Int
  SignalsBlockedQuantity : Int
  SignalsIgnoredQuantity : Int
  SiganlsCaughtQuantity : Int
  PlaceHolder1 : Int
  PlaceHolder2 : Int
  PlaceHolder3 : Int
  ExitSignal : Int
  CPU : Int
  RealtimePriority : Int
  SchedulingPolicy : Int
  TimeSpentOnBlockIO : Int
  GuestTime : Int
  GuestTimeWithChild : Int
  StartDataAddress : String
  EndDataAddress : String
  HeapExpansionAddress : String
  StartCMDAddress : String
  EndCMDAddress : String
  StartEnvAddress : String
  EndEnvAddress : String
  ExitCode : Int

/-- The Go zero value `ProcessStat{}`. -/
def ProcessStat.zero : ProcessStat where
  ID := 0
  FileName := ""
  State := ""
  ParentID := 0
  ProcessGroup := 0
  SessionID := 0
  TTY := 0
  TTYProcessGroup := 0
  TaskFlags := ""
  MinorFaultQuantity := 0
  MinorFaultWithChildQuantity := 0
  MajorFaultQuantity := 0
  MajorFaultWithChildQuantity := 0
  UserModeTime := 0
  KernalTime := 0
  UserModeTimeWithChild := 0
  KernalTimeWithChild := 0
  Priority := 0
  Nice := 0
  ThreadQuantity := 0
  ItRealValue := 0
  StartTime := 0
  VirtualMemSize := 0
  ResidentSetMemSize := 0
  RSSByteLimit := 0
  StartCode := ""
  EndCode := ""
  StartStack := ""
  ExtendedStackPointerAddress := 0
  ExtendedInstructionPointer := 0
  SignalPendingQuantity := 0
  SignalsBlockedQuantity := 0
  SignalsIgnoredQuantity := 0
  SiganlsCaughtQuantity := 0
  PlaceHolder1 := 0
  PlaceHolder2 := 0
  PlaceHolder3 := 0
  ExitSignal := 0
  CPU := 0
  RealtimePriority := 0
  SchedulingPolicy := 0
  TimeSpentOnBlockIO := 0
  GuestTime := 0
  GuestTimeWithChild := 0
  StartDataAddress := ""
  EndDataAddress := ""
  HeapExpansionAddress := ""
  StartCMDAddress := ""
  EndCMDAddress := ""
  StartEnvAddress := ""
  EndEnvAddress := ""
  ExitCode := 0

/-- One iteration of the `switch i` in `LoadStat2` (plib/linux.go):
token number `i` is written into field number `i`; indices past 51 fall
through without effect. -/
def applyStatField (i : Nat) (t : String) (ps : ProcessStat) : ProcessStat :=
  match i with
  | 0 => { ps with ID := goAtoiVal t }
  | 1 => { ps with FileName := t }
  | 2 => { ps with State := t }
  | 3 => { ps with ParentID := goAtoiVal t }
  | 4 => { ps with ProcessGroup := goAtoiVal t }
  | 5 => { ps with SessionID := goAtoiVal t }
  | 6 => { ps with TTY := goAtoiVal t }
  | 7 => { ps with TTYProcessGroup := goAtoiVal t }
  | 8 => { ps with TaskFlags := t }
  | 9 => { ps with MinorFaultQuantity := goAtoiVal t }
  | 10 => { ps with MinorFaultWithChildQuantity := goAtoiVal t }
  | 11 => { ps with MajorFaultQuantity := goAtoiVal t }
  | 12 => { ps with MajorFaultWithChildQuantity := goAtoiVal t }
  | 13 => { ps with UserModeTime := goAtoiVal t }
  | 14 => { ps with KernalTime := goAtoiVal t }
  | 15 => { ps with UserModeTimeWithChild := goAtoiVal t }
  | 16 => { ps with KernalTimeWithChild := goAtoiVal t }
  | 17 => { ps with Priority := goAtoiVal t }
  | 18 => { ps with Nice := goAtoiVal t }
  | 19 => { ps with ThreadQuantity := goAtoiVal t }
  | 20 => { ps with ItRealValue := goAtoiVal t }
  | 21 => { ps with StartTime := goAtoiVal t }
  | 22 => { ps with VirtualMemSize := goAtoiVal t }
  | 23 => { ps with ResidentSetMemSize := goAtoiVal t }
  | 24 => { ps with RSSByteLimit := goAtoiVal t }
  | 25 => { ps with StartCode := ConvertToHexMemoryAddress t }
  | 26 => { ps with EndCode := ConvertToHexMemoryAddress t }
  | 27 => { ps with StartStack := ConvertToHexMemoryAddress t }
  | 28 => { ps with ExtendedStackPointerAddress := goAtoiVal t }
  | 29 => { ps with ExtendedInstructionPointer := goAtoiVal t }
  | 30 => { ps with SignalPendingQuantity := goAtoiVal t }
  | 31 => { ps with SignalsBlockedQuantity := goAtoiVal t }
  | 32 => { ps with SignalsIgnoredQuantity := goAtoiVal t }
  | 33 => { ps with SiganlsCaughtQuantity := goAtoiVal t }
  | 34 => { ps with PlaceHolder1 := goAtoiVal t }
  | 35 => { ps with PlaceHolder2 := goAtoiVal t }
  | 36 => { ps with PlaceHolder3 := goAtoiVal t }
  | 37 => { ps with ExitSignal := goAtoiVal t }
  | 38 => { ps with CPU := goAtoiVal t }
  | 39 => { ps with RealtimePriority := goAtoiVal t }
  | 40 => { ps with SchedulingPolicy := goAtoiVal t }
  | 41 => { ps with TimeSpentOnBlockIO := goAtoiVal t }
  | 42 => { ps with GuestTime := goAtoiVal t }
  | 43 => { ps with GuestTimeWithChild := goAtoiVal t }
  | 44 => { ps with StartDataAddress := ConvertToHexMemoryAddress t }
  | 45 => { ps with EndDataAddress := ConvertToHexMemoryAddress t }
  | 46 => { ps with HeapExpansionAddress := ConvertToHexMemoryAddress t }
  | 47 => { ps with StartCMDAddress := ConvertToHexMemoryAddress t }
  | 48 => { ps with EndCMDAddress := ConvertToHexMemoryAddress t }
  | 49 => { ps with StartEnvAddress := ConvertToHexMemoryAddress t }
  | 50 => { ps with EndEnvAddress := ConvertToHexMemoryAddress t }
  | 51 => { ps with ExitCode := goAtoiVal t }
  | _ => ps

/-- The `for i, stat := range parsedStats` loop of `LoadStat2`. -/
def fillStatFields (ps : ProcessStat) (i : Nat) : List String → ProcessStat
  | [] => ps
  | t :: ts => fillStatFields (applyStatField i t ps) (i + 1) ts

/-- The pure part of `LoadStat2` after the stat file has been read:
`strings.Split(string(stat), " ")` followed by the positional switch. -/
def parseStat (raw : String) : ProcessStat :=
  fillStatFields ProcessStat.zero 0 (goSplit ' ' raw)

/-- `Process` (plib/process.go).  `OSSpecific` holds the `ProcessStat`
(the Go field is `any`, always populated here with `*ProcessStat`). -/
structure Process where
  ID : Int
  BinarySHA : String
  CommandName : String
  CommandPath : String
  FlagsAndArgs : String
  ParentProcess : Int
  IsKernel : Bool
  HasPermission : Bool
  -- Go field `Type` (renamed: `Type` is a Lean keyword)
  PType : String
  OSSpecific : ProcessStat

/-- `Processes` (a Go `map[int]*Process`), modelled as an association
list with left-biased lookup; insertion conses, so lookup semantics
match Go map assignment (latest write wins). -/
def Processes := List (Int × Process)

/-- Go map read `ps[pid]`: `none` plays the role of `nil`. -/
def plookup : Processes → Int → Option Process
  | [], _ => none
  | (k, v) :: rest, key => if key = k then some v else plookup rest key

/-- Go map write `ps[pid] = &p` (observational model: the new binding
shadows any previous one). -/
def pinsert (m : Processes) (k : Int) (v : Process) : Processes :=
  (k, v) :: m

/-- The distinct keys of a process table. -/
def pkeys (m : Processes) : List Int := (m.map Prod.fst).dedup

/-- The reified outcomes of every operating-system call the engine makes.
`rootDir` is `os.ReadDir` on the configured procfs root (entry names in
listing order); `readlinkExeDefault` is `os.Readlink("/proc/<pid>/exe")`
as used by `LoadProcessPath` (note: the hard-coded default root), while
`readlinkExe` is `os.Readlink(<procfs>/<pid>/exe)` as used by
`LoadProcessPath2`; `readStatFile` is `os.ReadFile(<procfs>/<pid>/stat)`;
`openRead p` tells whether `os.Open(p)` followed by `io.Copy` succeeds
and `fileContent p` gives the bytes hashed when it does; `persistOk`
tells whether `encodeProcessCache`'s directory-creation/create/encode
sequence succeeds; `removeFail` tells whether `os.Remove` on an existing
snapshot file fails with a non-`IsNotExist` error. -/
structure ProcFS where
  rootDir : Except OsErr (List String)
  readlinkExeDefault : Int → Except OsErr String
  readlinkExe : Int → Except OsErr String
  readStatFile : Int → Except OsErr String
  openRead : String → Bool
  fileContent : String → String
  persistOk : Bool
  removeFail : Bool

/-- `getPIDsFromProcfs` (plib/linux.go): note the `break` — the first
directory entry whose name fails `strconv.Atoi` stops the loop. -/
def collectPids : List String → List Int
  | [] => []
  | n :: rest => if goAtoiErr n then [] else goAtoiVal n :: collectPids rest

/-- `getPIDsFromProcfs`: `os.ReadDir` then the `Atoi`/`break` loop. -/
def getPIDsFromProcfs (dir : Except OsErr (List String)) : Except OsErr (List Int) :=
  match dir with
  | .error e => .error e
  | .ok names => .ok (collectPids names)

/-- `LoadProcessPath` (plib/linux.go): readlink on the default proc root. -/
def LoadProcessPath (fs : ProcFS) (pid : Int) : Except OsErr String :=
  fs.readlinkExeDefault pid

/-- `LoadProcessPath2` (plib/linux.go): readlink on the configured root. -/
def LoadProcessPath2 (fs : ProcFS) (pid : Int) : Except OsErr String :=
  fs.readlinkExe pid

/-- `LoadProcessName` (plib/linux.go): resolve the exe path, split on the
path separator, take the final component. -/
def LoadProcessName (fs : ProcFS) (pid : Int) : Except OsErr String :=
  match LoadProcessPath fs pid with
  | .error e => .error e
  | .ok path =>
    let dirs := goSplit '/' path
    if dirs.length < 1 then .ok "" else .ok (dirs.getLastD "")

/-- `LoadProcessSHA` (plib/linux.go).  Returns the digest together with
the list of paths it hashed (the instrumentation the spec asks for when
checking the memoization property); `.error ()` is the Go `panic`
reached when the file at `path` cannot be opened and read. -/
def LoadProcessSHA (fs : ProcFS) (path : String) : Except Unit (String × List String) :=
  if path = "" then .ok ("", [])
  else if fs.openRead path then .ok (sha256Hex (fs.fileContent path), [path])
  else .error ()

/-- `LoadStat2` (plib/linux.go): a read failure yields the zero record;
otherwise the raw record is parsed positionally. -/
def LoadStat2 (fs : ProcFS) (pid : Int) : ProcessStat :=
  match fs.readStatFile pid with
  | .error _ => ProcessStat.zero
  | .ok raw => parseStat raw

/-- The name-resolution stage of `LoadProcessStat`: `LoadProcessName`,
with a permission error mapped to the `PERM_DENIED` sentinel name, a
missing link mapped to the kernel-task branch (name = second token of
the stat record; its read failure is an explicit `panic(err)` and a
record with no second token is an index-out-of-range panic on
`parsedStats[1]`), and any other error mapped to "ERROR_UNKNOWN".
Returns (name, hasPermission, isKernel); `.error ()` is a panic. -/
def loadNameStep (fs : ProcFS) (pid : Int) : Except Unit (String × Bool × Bool) :=
  match LoadProcessName fs pid with
  | .ok n => .ok (n, true, false)
  | .error .perm => .ok (permDenied, false, false)
  | .error .notExist =>
    match fs.readStatFile pid with
    | .error _ => .error ()
    | .ok raw =>
      match (goSplit ' ' raw).get? 1 with
      | none => .error ()
      | some t => .ok (t, true, true)
  | .error .other => .ok ("ERROR_UNKNOWN", true, false)

/-- The path/digest stage of `LoadProcessStat`: resolve the exe link via
`LoadProcessPath2`, classifying a permission error as the
`PERM_DENIED` sentinel and any other error as `ERROR_READING_STAT`,
then hash via `LoadProcessSHA`. -/
def loadPathShaStep (fs : ProcFS) (pid : Int) : Except Unit (String × String × List String) :=
  match LoadProcessPath2 fs pid with
  | .error .perm => .ok (permDenied, permDenied, [])
  | .error _ => .ok (statError, statError, [])
  | .ok path =>
    match LoadProcessSHA fs path with
    | .error () => .error ()
    | .ok (sha, tr) => .ok (path, sha, tr)

/-- `LoadProcessStat` (plib/linux.go): assemble one `Process` for `pid`
from the two stages above plus the parsed stat record.  `.error ()` is
a Go `panic` propagated from either stage.  On success the hash-call
trace is returned alongside the process. -/
def LoadProcessStat (fs : ProcFS) (pid : Int) : Except Unit (Process × List String) :=
  match loadNameStep fs pid with
  | .error () => .error ()
  | .ok (name, hasPerm, isK) =>
    match loadPathShaStep fs pid with
    | .error () => .error ()
    | .ok (path, sha, tr) =>
      let stat := LoadStat2 fs pid
      .ok ({ ID := pid
             IsKernel := isK
             HasPermission := hasPerm
             CommandName := name
             CommandPath := path
             ParentProcess := stat.ParentID
             BinarySHA := sha
             FlagsAndArgs := ""
             PType := ""
             OSSpecific := stat }, tr)

/-- `LinuxInspector` state: the cache-relevant configuration and the
in-memory table (`none` models the Go nil map). -/
structure LinuxInspector where
  ignoreCache : Bool
  ps : Option Processes

/-- The world outside the inspector that the cache operations touch:
the snapshot file.  `none` = no file; `some none` = a file that fails
to gob-decode; `some (some t)` = a file decoding to table `t`. -/
structure World where
  cacheFile : Option (Option Processes)

/-- `loadProcessesFromCache` (plib/linux.go): any failure — missing
file, undecodable file, or an empty decoded table — yields `nil`. -/
def loadProcessesFromCache (w : World) : Option Processes :=
  match w.cacheFile with
  | none => none
  | some none => none
  | some (some t) => if t.length < 1 then none else some t

/-- The `for _, p := range ps` loading loop of `LoadProcesses`,
accumulating map writes and the hash-call trace; a panic anywhere
aborts the whole program. -/
def loadLoop (fs : ProcFS) : List Int → Processes → List String →
    Except Unit (Processes × List String)
  | [], acc, tr => .ok (acc, tr)
  | p :: rest, acc, tr =>
    match LoadProcessStat fs p with
    | .error () => .error ()
    | .ok (proc, t) => loadLoop fs rest (pinsert acc p proc) (tr ++ t)

/-- Outcome of `LoadProcesses`: a normal return (`ok`), an error return
(`errReturn`, carrying the mutated receiver as Go does), or a `panic`
that aborts the program. -/
inductive LoadResult where
  | ok (li : LinuxInspector) (w : World) (trace : List String)
  | errReturn (li : LinuxInspector) (w : World) (trace : List String)
  | panicked

/-- `LoadProcesses` (plib/linux.go): reset the in-memory table, list the
procfs root, load every pid, then (unless `IgnoreCache`) persist the
snapshot; a persistence failure is returned as an error. -/
def LoadProcesses (fs : ProcFS) (li : LinuxInspector) (w : World) : LoadResult :=
  let li := { li with ps := some [] }
  match getPIDsFromProcfs fs.rootDir with
  | .error _ => .errReturn li w []
  | .ok pids =>
    match loadLoop fs pids [] [] with
    | .error () => .panicked
    | .ok (entries, tr) =>
      let li := { li with ps := some entries }
      if li.ignoreCache then .ok li w tr
      else if fs.persistOk then .ok li { w with cacheFile := some (some entries) } tr
      else .errReturn li w tr

/-- `clearProcessCache` (plib/linux.go): `os.Remove`, swallowing only
`IsNotExist` errors. -/
def clearProcessCache (fs : ProcFS) (w : World) : Except Unit World :=
  match w.cacheFile with
  | none => .ok w
  | some _ => if fs.removeFail then .error () else .ok { w with cacheFile := none }

/-- `LinuxInspector.ClearProcessCache` (plib/linux.go): delegates to
`clearProcessCache`, wrapping its error; never touches the receiver. -/
def ClearProcessCache (fs : ProcFS) (li : LinuxInspector) (w : World) :
    Except Unit Unit × LinuxInspector × World :=
  match clearProcessCache fs w with
  | .ok w' => (.ok (), li, w')
  | .error () => (.error (), li, w)

/-- Outcome of `GetProcesses`: the returned table plus the resulting
inspector/world, an error return, or a propagated panic. -/
inductive GetResult where
  | ok (t : Processes) (li : LinuxInspector) (w : World)
  | errReturn (li : LinuxInspector) (w : World)
  | panicked

/-- `GetProcesses` (plib/linux.go): tier 1 the in-memory table, tier 2
the persisted snapshot (skipped under `IgnoreCache`), tier 3 a live
`LoadProcesses`; a nil table after all tiers is an internal error. -/
def GetProcesses (fs : ProcFS) (li : LinuxInspector) (w : World) : GetResult :=
  let li := match li.ps, li.ignoreCache with
    | none, false => { li with ps := loadProcessesFromCache w }
    | _, _ => li
  match li.ps with
  | some t => .ok t li w
  | none =>
    match LoadProcesses fs li w with
    | .panicked => .panicked
    | .errReturn li' w' _ => .errReturn li' w'
    | .ok li' w' _ =>
      match li'.ps with
      | none => .errReturn li' w'
      | some t => .ok t li' w'

/-- Outcome of the `proctor process tree` walk (`runTreeProcess`,
proctor/cmd/cmd.go): either the "failed to find process" exit, the
collected chain, or — since the `for {}` loop has no cycle protection —
non-termination, surfaced here as running out of fuel. -/
inductive TreeResult where
  | notFound (pid : Int)
  | chain (l : List Process)
  | outOfFuel

/-- Whether a tree walk ran out of fuel. -/
def TreeResult.isOutOfFuel : TreeResult → Bool
  | .outOfFuel => true
  | _ => false

/-- The `for {}` loop of `runTreeProcess`: stop at parent pid 0 or at a
parent missing from the table, otherwise append the parent and continue. -/
def treeLoop (ps : Processes) : Nat → Int → List Process → TreeResult
  | 0, _, _ => .outOfFuel
  | fuel + 1, cur, acc =>
    if cur = 0 then .chain acc
    else
      match plookup ps cur with
      | none => .chain acc
      | some p => treeLoop ps fuel p.ParentProcess (acc ++ [p])

/-- `runTreeProcess` (proctor/cmd/cmd.go), after the table has been
retrieved: the starting pid must be present, then the loop collects the
chain starting from its parent. -/
def runTreeProcess (fuel : Nat) (ps : Processes) (pid : Int) : TreeResult :=
  match plookup ps pid with
  | none => .notFound pid
  | some p => treeLoop ps fuel p.ParentProcess [p]

/-- The pids the tree/fingerprint loop visits (the successive values of
`currentParentPid` for which the loop body runs), up to `fuel` steps. -/
def visitList (ps : Processes) : Nat → Int → List Int
  | 0, _ => []
  | fuel + 1, cur =>
    if cur = 0 then []
    else
      match plookup ps cur with
      | none => []
      | some p => cur :: visitList ps fuel p.ParentProcess

/-- Outcome of `proctor process finger-print` (`runFingerPrintProcess`,
proctor/cmd/cmd.go).  `digestInput s` is success: the command outputs
`hex(sha256(s))`, so `s` is exactly the input fed to the digest.
The three error constructors are the three distinct
`outputErrorAndFail` exits of the function. -/
inductive FPResult where
  | notFound (pid : Int)
  | missingChecksum (pid : Int)
  | missingParentDetails (ppid : Int)
  | digestInput (combinedHashes : String)
  | outOfFuel

/-- Equality test against a successful digest input (used to state
concrete evaluations without comparing `Process` values). -/
def FPResult.isDigestOf : FPResult → String → Bool
  | .digestInput s, s' => s = s'
  | _, _ => false

/-- The `for {}` loop of `runFingerPrintProcess`: stop at parent pid 0;
fail if the parent is missing from the table; otherwise concatenate the
parent's `BinarySHA` — whatever it is — and continue. -/
def fpLoop (ps : Processes) : Nat → Int → String → FPResult
  | 0, _, _ => .outOfFuel
  | fuel + 1, cur, acc =>
    if cur = 0 then .digestInput acc
    else
      match plookup ps cur with
      | none => .missingParentDetails cur
      | some p => fpLoop ps fuel p.ParentProcess (acc ++ p.BinarySHA)

/-- `runFingerPrintProcess` (proctor/cmd/cmd.go), after the table has
been retrieved: the starting pid must be present and must have a
non-empty `BinarySHA`; ancestors are only checked for presence. -/
def runFingerPrintProcess (fuel : Nat) (ps : Processes) (pid : Int) : FPResult :=
  match plookup ps pid with
  | none => .notFound pid
  | some p =>
    if p.BinarySHA = "" then .missingChecksum pid
    else fpLoop ps fuel p.ParentProcess p.BinarySHA

/-- Replace every process's `HasPermission` flag by `b`. -/
def setAllPerm (b : Bool) (ps : Processes) : Processes :=
  ps.map (fun kv => (kv.1, { kv.2 with HasPermission := b }))

/-- Token index `i` writes only field number `i`: every other index
leaves `ID`, `FileName`, `State` and `ParentID` untouched. -/
theorem applyStatField_proj (i : Nat) (t : String) (ps : ProcessStat) :
    (i ≠ 0 → (applyStatField i t ps).ID = ps.ID) ∧
    (i ≠ 1 → (applyStatField i t ps).FileName = ps.FileName) ∧
    (i ≠ 2 → (applyStatField i t ps).State = ps.State) ∧
    (i ≠ 3 → (applyStatField i t ps).ParentID = ps.ParentID) := by
  match i with
  | 0 => exact ⟨fun h => absurd rfl h, fun _ => rfl, fun _ => rfl, fun _ => rfl⟩
  | 1 => exact ⟨fun _ => rfl, fun h => absurd rfl h, fun _ => rfl, fun _ => rfl⟩
  | 2 => exact ⟨fun _ => rfl, fun _ => rfl, fun h => absurd rfl h, fun _ => rfl⟩
  | 3 => exact ⟨fun _ => rfl, fun _ => rfl, fun _ => rfl, fun h => absurd rfl h⟩
  | 4 => exact ⟨fun _ => rfl, fun _ => rfl, fun _ => rfl, fun _ => rfl⟩
  | 5 => exact ⟨fun _ => rfl, fun _ => rfl, fun _ => rfl, fun _ => rfl⟩
  | 6 => exact ⟨fun _ => rfl, fun _ => rfl, fun _ => rfl, fun _ => rfl⟩
  | 7 => exact ⟨fun _ => rfl, fun _ => rfl, fun _ => rfl, fun _ => rfl⟩
  | 8 => exact ⟨fun _ => rfl, fun _ => rfl, fun _ => rfl, fun _ => rfl⟩
  | 9 => exact ⟨fun _ => rfl, fun _ => rfl, fun _ => rfl, fun _ => rfl⟩
  | 10 => exact ⟨fun _ => rfl, fun _ => rfl, fun _ => rfl, fun _ => rfl⟩
  | 11 => exact ⟨fun _ => rfl, fun _ => rfl, fun _ => rfl, fun _ => rfl⟩
  | 12 => exact ⟨fun _ => rfl, fun _ => rfl, fun _ => rfl, fun _ => rfl⟩
  | 13 => exact ⟨fun _ => rfl, fun _ => rfl, fun _ => rfl, fun _ => rfl⟩
  | 14 => exact ⟨fun _ => rfl, fun _ => rfl, fun _ => rfl, fun _ => rfl⟩
  | 15 => exact ⟨fun _ => rfl, fun _ => rfl, fun _ => rfl, fun _ => rfl⟩
  | 16 => exact ⟨fun _ => rfl, fun _ => rfl, fun _ => rfl, fun _ => rfl⟩
  | 17 => exact ⟨fun _ => rfl, fun _ => rfl, fun _ => rfl, fun _ => rfl⟩
  | 18 => exact ⟨fun _ => rfl, fun _ => rfl, fun _ => rfl, fun _ => rfl⟩
  | 19 => exact ⟨fun _ => rfl, fun _ => rfl, fun _ => rfl, fun _ => rfl⟩
  | 20 => exact ⟨fun _ => rfl, fun _ => rfl, fun _ => rfl, fun _ => rfl⟩
  | 21 => exact ⟨fun _ => rfl, fun _ => rfl, fun _ => rfl, fun _ => rfl⟩
  | 22 => exact ⟨fun _ => rfl, fun _ => rfl, fun _ => rfl, fun _ => rfl⟩
  | 23 => exact ⟨fun _ => rfl, fun _ => rfl, fun _ => rfl, fun _ => rfl⟩
  | 24 => exact ⟨fun _ => rfl, fun _ => rfl, fun _ => rfl, fun _ => rfl⟩
  | 25 => exact ⟨fun _ => rfl, fun _ => rfl, fun _ => rfl, fun _ => rfl⟩
  | 26 => exact ⟨fun _ => rfl, fun _ => rfl, fun _ => rfl, fun _ => rfl⟩
  | 27 => exact ⟨fun _ => rfl, fun _ => rfl, fun _ => rfl, fun _ => rfl⟩
  | 28 => exact ⟨fun _ => rfl, fun _ => rfl, fun _ => rfl, fun _ => rfl⟩
  | 29 => exact ⟨fun _ => rfl, fun _ => rfl, fun _ => rfl, fun _ => rfl⟩
  | 30 => exact ⟨fun _ => rfl, fun _ => rfl, fun _ => rfl, fun _ => rfl⟩
  | 31 => exact ⟨fun _ => rfl, fun _ => rfl, fun _ => rfl, fun _ => rfl⟩
  | 32 => exact ⟨fun _ => rfl, fun _ => rfl, fun _ => rfl, fun _ => rfl⟩
  | 33 => exact ⟨fun _ => rfl, fun _ => rfl, fun _ => rfl, fun _ => rfl⟩
  | 34 => exact ⟨fun _ => rfl, fun _ => rfl, fun _ => rfl, fun _ => rfl⟩
  | 35 => exact ⟨fun _ => rfl, fun _ => rfl, fun _ => rfl, fun _ => rfl⟩
  | 36 => exact ⟨fun _ => rfl, fun _ => rfl, fun _ => rfl, fun _ => rfl⟩
  | 37 => exact ⟨fun _ => rfl, fun _ => rfl, fun _ => rfl, fun _ => rfl⟩
  | 38 => exact ⟨fun _ => rfl, fun _ => rfl, fun _ => rfl, fun _ => rfl⟩
  | 39 => exact ⟨fun _ => rfl, fun _ => rfl, fun _ => rfl, fun _ => rfl⟩
  | 40 => exact ⟨fun _ => rfl, fun _ => rfl, fun _ => rfl, fun _ => rfl⟩
  | 41 => exact ⟨fun _ => rfl, fun _ => rfl, fun _ => rfl, fun _ => rfl⟩
  | 42 => exact ⟨fun _ => rfl, fun _ => rfl, fun _ => rfl, fun _ => rfl⟩
  | 43 => exact ⟨fun _ => rfl, fun _ => rfl, fun _ => rfl, fun _ => rfl⟩
  | 44 => exact ⟨fun _ => rfl, fun _ => rfl, fun _ => rfl, fun _ => rfl⟩
  | 45 => exact ⟨fun _ => rfl, fun _ => rfl, fun _ => rfl, fun _ => rfl⟩
  | 46 => exact ⟨fun _ => rfl, fun _ => rfl, fun _ => rfl, fun _ => rfl⟩
  | 47 => exact ⟨fun _ => rfl, fun _ => rfl, fun _ => rfl, fun _ => rfl⟩
  | 48 => exact ⟨fun _ => rfl, fun _ => rfl, fun _ => rfl, fun _ => rfl⟩
  | 49 => exact ⟨fun _ => rfl, fun _ => rfl, fun _ => rfl, fun _ => rfl⟩
  | 50 => exact ⟨fun _ => rfl, fun _ => rfl, fun _ => rfl, fun _ => rfl⟩
  | 51 => exact ⟨fun _ => rfl, fun _ => rfl, fun _ => rfl, fun _ => rfl⟩
  | n + 52 => exact ⟨fun _ => rfl, fun _ => rfl, fun _ => rfl, fun _ => rfl⟩

/-- Once the loop index has passed 3, the remaining iterations can no
longer change the first four schema fields. -/
theorem fillStatFields_proj_ge4 :
    ∀ (ts : List String) (ps : ProcessStat) (i : Nat), 4 ≤ i →
      (fillStatFields ps i ts).ID = ps.ID ∧
      (fillStatFields ps i ts).FileName = ps.FileName ∧
      (fillStatFields ps i ts).State = ps.State ∧
      (fillStatFields ps i ts).ParentID = ps.ParentID := by
  intro ts
  induction ts with
  | nil => exact fun ps i _ => ⟨rfl, rfl, rfl, rfl⟩
  | cons t ts ih =>
    intro ps i hi
    have h := applyStatField_proj i t ps
    have h' := ih (applyStatField i t ps) (i + 1) (by omega)
    refine ⟨?_, ?_, ?_, ?_⟩
    · rw [fillStatFields, h'.1, h.1 (by omega)]
    · rw [fillStatFields, h'.2.1, h.2.1 (by omega)]
    · rw [fillStatFields, h'.2.2.1, h.2.2.1 (by omega)]
    · rw [fillStatFields, h'.2.2.2, h.2.2.2 (by omega)]

/-- The stat record of the claim's example scenario (the full record, as
fixed in the repository's own test data `StatData1002`). -/
def statData1002 : String := "1002 (Thunar) S 898 898 898 0 -1 4194304 9075 31619 19 0 242 54 42 7 20 0 3 0 4316 499617792 14545 18446744073709551615 94657007656960 94657008059597 140727172487872 0 0 0 0 4096 0 0 0 0 17 10 0 0 0 0 0 94657008206176 94657008240992 94657028120576 140727172496280 140727172496349 140727172496349 140727172497384 0"

/-- The first four schema fields are exactly the first four
space-delimited tokens (numeric ones through the error-discarding
`Atoi`), for every token list. -/
theorem parseStat_positional (ts : List String) :
    (fillStatFields ProcessStat.zero 0 ts).ID = goAtoiVal (ts.getD 0 "") ∧
    (fillStatFields ProcessStat.zero 0 ts).FileName = ts.getD 1 "" ∧
    (fillStatFields ProcessStat.zero 0 ts).State = ts.getD 2 "" ∧
    (fillStatFields ProcessStat.zero 0 ts).ParentID = goAtoiVal (ts.getD 3 "") := by
  match ts with
  | [] => exact ⟨rfl, rfl, rfl, rfl⟩
  | [t0] => exact ⟨rfl, rfl, rfl, rfl⟩
  | [t0, t1] => exact ⟨rfl, rfl, rfl, rfl⟩
  | [t0, t1, t2] => exact ⟨rfl, rfl, rfl, rfl⟩
  | t0 :: t1 :: t2 :: t3 :: rest =>
    have h := fillStatFields_proj_ge4 rest
      (applyStatField 3 t3 (applyStatField 2 t2 (applyStatField 1 t1
        (applyStatField 0 t0 ProcessStat.zero)))) 4 (by omega)
    exact ⟨h.1, h.2.1, h.2.2.1, h.2.2.2⟩

/-- C7 (counterexample): "unparsable numeric tokens yield zero" fails.
The rsslim token of the example record itself, `18446744073709551615`,
is rejected by `strconv.Atoi` (range error), yet the field receives the
clamped value `2^63 - 1`, not zero. -/
theorem C7_counterexample :
    goAtoiErr "18446744073709551615" = true ∧
    (parseStat statData1002).RSSByteLimit = 9223372036854775807 ∧
    (9223372036854775807 : Int) ≠ 0 := by
  refine ⟨rfl, rfl, by decide⟩

/-- C7 (amended): parsing the example record yields ID=1002,
FileName="(Thunar)", ParentID=898; in general the Nth space-delimited
token maps to the Nth positional field (shown for the four leading
fields); a numeric token that is not even syntactically an integer
yields zero, while a syntactically valid token outside the 64-bit
range yields the clamped extreme value rather than zero. -/
theorem C7_amended :
    ((parseStat statData1002).ID = 1002 ∧
     (parseStat statData1002).FileName = "(Thunar)" ∧
     (parseStat statData1002).ParentID = 898) ∧
    (∀ raw : String,
      (parseStat raw).ID = goAtoiVal ((goSplit ' ' raw).getD 0 "") ∧
      (parseStat raw).FileName = (goSplit ' ' raw).getD 1 "" ∧
      (parseStat raw).ParentID = goAtoiVal ((goSplit ' ' raw).getD 3 "")) ∧
    (∀ s : String, decDigits? (splitSign s.toList).2 = none → goAtoiVal s = 0) := by
  refine ⟨⟨rfl, rfl, rfl⟩, ?_, ?_⟩
  · intro raw
    have h := parseStat_positional (goSplit ' ' raw)
    exact ⟨h.1, h.2.1, h.2.2.2⟩
  · intro s h
    simp only [goAtoiVal, goAtoi, h]

/-- C7 (witness): the unparsable token "(Thunar)" indeed yields zero. -/
theorem C7_amended_witness : goAtoiVal "(Thunar)" = 0 :=
  C7_amended.2.2 "(Thunar)" rfl

/-- Whether `LoadProcesses` ended in a Go panic. -/
def LoadResult.isPanic : LoadResult → Bool
  | .panicked => true
  | _ => false

/-- Whether `LoadProcesses` returned an error. -/
def LoadResult.isErrReturn : LoadResult → Bool
  | .errReturn _ _ _ => true
  | _ => false

/-- The hash-call trace of a completed (normally returned) scan. -/
def LoadResult.trace? : LoadResult → Option (List String)
  | .ok _ _ tr => some tr
  | _ => none

/-- Whether an OS call failed. -/
def exceptIsErr : Except OsErr (List String) → Bool
  | .error _ => true
  | .ok _ => false

/-- A process record as built for tables in concrete scenarios. -/
def mkProc (id parent : Int) (sha : String) (perm : Bool) : Process where
  ID := id
  BinarySHA := sha
  CommandName := ""
  CommandPath := ""
  FlagsAndArgs := ""
  ParentProcess := parent
  IsKernel := false
  HasPermission := perm
  PType := ""
  OSSpecific := ProcessStat.zero

/-- A freshly constructed inspector (cache enabled, nil table). -/
def li0 : LinuxInspector := ⟨false, none⟩

/-- A world with no snapshot file. -/
def w0 : World := ⟨none⟩

/-- Environment: two live processes whose exe links resolve to the same
binary; everything readable; stat files unreadable (degrading to a zero
stat record); snapshot persisting succeeds. -/
def fsShared : ProcFS where
  rootDir := .ok ["1", "2"]
  readlinkExeDefault := fun _ => .ok "/bin/sh"
  readlinkExe := fun _ => .ok "/bin/sh"
  readStatFile := fun _ => .error .other
  openRead := fun _ => true
  fileContent := fun _ => "SH"
  persistOk := true
  removeFail := false

/-- Environment: the exe symlink of pid 7 resolves, but the file at the
resolved path cannot be opened (e.g. the binary was deleted between the
readlink and the open). -/
def fsBadOpen : ProcFS where
  rootDir := .ok ["7"]
  readlinkExeDefault := fun _ => .ok "/bin/x"
  readlinkExe := fun _ => .ok "/bin/x"
  readStatFile := fun _ => .error .other
  openRead := fun _ => false
  fileContent := fun _ => ""
  persistOk := true
  removeFail := false

/-- Environment: enumeration succeeds and the single process loads
cleanly, but persisting the snapshot fails. -/
def fsPersistFail : ProcFS where
  rootDir := .ok ["1"]
  readlinkExeDefault := fun _ => .ok "/bin/a"
  readlinkExe := fun _ => .ok "/bin/a"
  readStatFile := fun _ => .error .other
  openRead := fun _ => true
  fileContent := fun _ => "A"
  persistOk := false
  removeFail := false

/-- C6: the scan's pid set is NOT the set of numeric-named entries: the
loop `break`s at the first non-numeric name (the code's own comment says
"skipped"), so the numeric entry "2" after "foo" is dropped. -/
theorem C6_code_behavior :
    getPIDsFromProcfs (.ok ["1", "foo", "2"]) = .ok [1] ∧
    getPIDsFromProcfs (.ok ["1", "foo", "2"]) ≠ .ok [1, 2] :=
  ⟨rfl, fun h => absurd (Except.ok.inj h) (by decide)⟩

/-- C5: the per-process loader's panic branch is reachable: when the exe
link resolves but the file cannot be opened for hashing, `LoadProcessSHA`
panics, and the panic aborts the entire scan rather than degrading that
process's fields to sentinels. -/
theorem C5_code_behavior :
    LoadProcessStat fsBadOpen 7 = .error () ∧
    (LoadProcesses fsBadOpen li0 w0).isPanic = true :=
  ⟨rfl, rfl⟩

/-- C4 (counterexample): `LoadProcesses` returns an error although the
process-info root was enumerated successfully — the failing snapshot
persistence step also produces an error return. -/
theorem C4_counterexample :
    (LoadProcesses fsPersistFail li0 w0).isErrReturn = true ∧
    fsPersistFail.rootDir = .ok ["1"] :=
  ⟨rfl, rfl⟩

/-- C2 (counterexample): two processes sharing one executable path are
hashed twice in a single full scan — the hash-call trace records the
shared path once per process, not once per unique path. -/
theorem C2_counterexample :
    (LoadProcesses fsShared li0 w0).trace? = some ["/bin/sh", "/bin/sh"] ∧
    (["/bin/sh", "/bin/sh"] : List String).count "/bin/sh" = 2 ∧ (2 : Nat) ≠ 1 :=
  ⟨rfl, rfl, by decide⟩

/-- A two-element ancestry table: the start has a healthy checksum, its
parent (a chain member) lacks permission and carries the
`PERM_DENIED` sentinel as its checksum. -/
def fpSentinelTable : Processes := [(10, mkProc 10 2 "abc" true), (2, mkProc 2 0 permDenied false)]

/-- C1 (counterexample): an ancestor with `has_permission=false` and the
`PERM_DENIED` sentinel as fingerprint does NOT make the operation fail:
it succeeds, and the sentinel is concatenated into the digest input. -/
theorem C1_counterexample :
    (runFingerPrintProcess 100 fpSentinelTable 10).isDigestOf ("abc" ++ permDenied) = true ∧
    (plookup fpSentinelTable 2).map Process.HasPermission = some false ∧
    (plookup fpSentinelTable 2).map Process.BinarySHA = some permDenied :=
  ⟨rfl, rfl, rfl⟩

/-- A two-element table whose parent links form a cycle: 5 → 6 → 5. -/
def cycTable : Processes := [(5, mkProc 5 6 "a" true), (6, mkProc 6 5 "b" true)]

/-- C3 (counterexample): on a cyclic parent-link table the ancestry walk
does not stop within the table's size (2) — nor within 100 steps: the
loop has no cycle protection and runs forever. -/
theorem C3_counterexample :
    (runTreeProcess 3 cycTable 5).isOutOfFuel = true ∧
    (runTreeProcess 100 cycTable 5).isOutOfFuel = true ∧
    (pkeys cycTable).length = 2 :=
  ⟨rfl, rfl, rfl⟩

/-- Rewriting every permission flag commutes with table lookup. -/
theorem plookup_setAllPerm (b : Bool) (ps : Processes) (key : Int) :
    plookup (setAllPerm b ps) key =
      (plookup ps key).map (fun p => { p with HasPermission := b }) := by
  induction ps with
  | nil => rfl
  | cons kv rest ih =>
    show plookup ((kv.1, { kv.2 with HasPermission := b }) :: setAllPerm b rest) key = _
    by_cases h : key = kv.1
    · simp [plookup, h]
    · simp [plookup, h, ih]

/-- The fingerprint loop never reads `HasPermission`: flipping every
permission flag leaves its result unchanged. -/
theorem fpLoop_setAllPerm (b : Bool) (ps : Processes) :
    ∀ (fuel : Nat) (cur : Int) (acc : String),
      fpLoop (setAllPerm b ps) fuel cur acc = fpLoop ps fuel cur acc := by
  intro fuel
  induction fuel with
  | zero => intro cur acc; rfl
  | succ fuel ih =>
    intro cur acc
    by_cases hc : cur = 0
    · simp [fpLoop, hc]
    · simp only [fpLoop, hc, if_false, plookup_setAllPerm]
      cases plookup ps cur with
      | none => rfl
      | some p => exact ih p.ParentProcess (acc ++ p.BinarySHA)

/-- C1 (amended): the fingerprint operation fails — each with its own
distinct message — exactly for a missing starting process, an empty
starting checksum, or an ancestor pid absent from the table.  The
`HasPermission` flags of the processes in the chain never influence the
outcome, and ancestors' sentinel or empty checksums are concatenated
into the digest input instead of causing a failure. -/
theorem C1_amended :
    (∀ (ps : Processes) (pid : Int) (fuel : Nat),
       plookup ps pid = none →
       runFingerPrintProcess fuel ps pid = .notFound pid) ∧
    (∀ (ps : Processes) (pid : Int) (p : Process) (fuel : Nat),
       plookup ps pid = some p → p.BinarySHA = "" →
       runFingerPrintProcess fuel ps pid = .missingChecksum pid) ∧
    (∀ (ps : Processes) (pid : Int) (fuel : Nat) (b : Bool),
       runFingerPrintProcess fuel (setAllPerm b ps) pid =
         runFingerPrintProcess fuel ps pid) := by
  refine ⟨?_, ?_, ?_⟩
  · intro ps pid fuel h
    simp [runFingerPrintProcess, h]
  · intro ps pid p fuel h hsha
    simp [runFingerPrintProcess, h, hsha]
  · intro ps pid fuel b
    simp only [runFingerPrintProcess, plookup_setAllPerm]
    cases plookup ps pid with
    | none => rfl
    | some p =>
      simp only [Option.map_some]
      by_cases hsha : p.BinarySHA = ""
      · simp [hsha]
      · simp [hsha, fpLoop_setAllPerm]

/-- C1 (witness): a table whose starting process has an empty checksum is
rejected with the missing-checksum message. -/
theorem C1_amended_witness :
    runFingerPrintProcess 9 [(5, mkProc 5 0 "" true)] 5 = .missingChecksum 5 :=
  C1_amended.2.1 [(5, mkProc 5 0 "" true)] 5 (mkProc 5 0 "" true) 9 rfl rfl

/-- If the tree walk exhausts its fuel, the loop body ran `fuel` times:
the visit sequence has exactly `fuel` entries. -/
theorem treeLoop_outOfFuel_visits (ps : Processes) :
    ∀ (fuel : Nat) (cur : Int) (acc : List Process),
      treeLoop ps fuel cur acc = .outOfFuel →
      (visitList ps fuel cur).length = fuel := by
  intro fuel
  induction fuel with
  | zero => intro cur acc _; rfl
  | succ fuel ih =>
    intro cur acc h
    by_cases hc : cur = 0
    · simp [treeLoop, hc] at h
    · simp only [treeLoop, hc, if_false] at h
      cases hl : plookup ps cur with
      | none => rw [hl] at h; simp at h
      | some p =>
        rw [hl] at h
        simp only [visitList, hc, if_false, hl, List.length_cons]
        rw [ih p.ParentProcess (acc ++ [p]) h]

/-- Every pid in the visit sequence has an entry in the table. -/
theorem visitList_mem_lookup (ps : Processes) :
    ∀ (fuel : Nat) (cur x : Int), x ∈ visitList ps fuel cur →
      (plookup ps x).isSome = true := by
  intro fuel
  induction fuel with
  | zero => intro cur x h; simp [visitList] at h
  | succ fuel ih =>
    intro cur x h
    by_cases hc : cur = 0
    · simp [visitList, hc] at h
    · simp only [visitList, hc, if_false] at h
      cases hl : plookup ps cur with
      | none => rw [hl] at h; simp at h
      | some p =>
        rw [hl] at h
        rcases List.mem_cons.mp h with rfl | h'
        · simp [hl]
        · exact ih p.ParentProcess x h'

/-- A pid with a table entry is one of the table's distinct keys. -/
theorem lookup_isSome_mem_pkeys (ps : Processes) (x : Int)
    (h : (plookup ps x).isSome = true) : x ∈ pkeys ps := by
  induction ps with
  | nil => simp [plookup] at h
  | cons kv rest ih =>
    unfold pkeys
    rw [List.mem_dedup]
    by_cases hx : x = kv.1
    · simp [hx]
    · simp only [plookup, hx, if_false] at h
      have := ih h
      unfold pkeys at this
      rw [List.mem_dedup] at this
      simp [this]

/-- C3 (amended): when the walk's visit sequence repeats no pid — i.e.
the parent links reachable from the start are acyclic — the ancestry
walk terminates within (number of distinct table keys) + 1 loop steps,
stopping at the root sentinel parent 0 or at a pid absent from the
table; a cyclic table, by contrast, makes the walk run forever. -/
theorem C3_amended (ps : Processes) (pid : Int) (p : Process)
    (hp : plookup ps pid = some p)
    (hnd : (visitList ps ((pkeys ps).length + 1) p.ParentProcess).Nodup) :
    (runTreeProcess ((pkeys ps).length + 1) ps pid).isOutOfFuel = false := by
  unfold runTreeProcess
  rw [hp]
  change (treeLoop ps ((pkeys ps).length + 1) p.ParentProcess [p]).isOutOfFuel = false
  cases h : treeLoop ps ((pkeys ps).length + 1) p.ParentProcess [p] with
  | notFound _ => rfl
  | chain _ => rfl
  | outOfFuel =>
    exfalso
    have hlen := treeLoop_outOfFuel_visits ps _ _ _ h
    have hsub : visitList ps ((pkeys ps).length + 1) p.ParentProcess ⊆ pkeys ps := by
      intro x hx
      exact lookup_isSome_mem_pkeys ps x (visitList_mem_lookup ps _ _ x hx)
    have := (hnd.subperm hsub).length_le
    omega

/-- The spec's own three-process example chain 99 → 50 → 1 → (root). -/
def chainTable : Processes :=
  [(99, mkProc 99 50 "x" true), (50, mkProc 50 1 "y" true), (1, mkProc 1 0 "z" true)]

/-- C3 (witness): on the acyclic example table the walk finishes within
(distinct keys)+1 = 4 steps. -/
theorem C3_amended_witness :
    (runTreeProcess 4 chainTable 99).isOutOfFuel = false :=
  C3_amended chainTable 99 (mkProc 99 50 "x" true) rfl (by decide)

/-- Whether `pid`'s exe link resolves to exactly the path `p`. -/
def resolvesTo (fs : ProcFS) (p : String) (pid : Int) : Bool :=
  match fs.readlinkExe pid with
  | .ok q => decide (q = p)
  | .error _ => false

/-- The hash-call trace of one successfully loaded process: the resolved
exe path if the link resolved to a non-empty path, nothing otherwise. -/
theorem loadPathShaStep_trace (fs : ProcFS) (pid : Int) (path sha : String)
    (tr : List String) (h : loadPathShaStep fs pid = .ok (path, sha, tr)) :
    tr = (match fs.readlinkExe pid with
          | .ok q => if q = "" then [] else [q]
          | .error _ => []) := by
  unfold loadPathShaStep LoadProcessPath2 at h
  cases he : fs.readlinkExe pid with
  | error e =>
    rw [he] at h
    cases e <;> simp_all
  | ok q =>
    rw [he] at h
    unfold LoadProcessSHA at h
    by_cases hq : q = ""
    · simp only [hq, if_true, if_pos rfl] at h ⊢
      simp only [Except.ok.injEq, Prod.mk.injEq] at h
      exact h.2.2.symm
    · simp only [hq, if_false, if_neg hq] at h ⊢
      by_cases ho : fs.openRead q
      · simp only [ho, if_true] at h
        simp only [Except.ok.injEq, Prod.mk.injEq] at h
        exact h.2.2.symm
      · simp [ho] at h

/-- Projections of a successful per-process load: the built record's ID
is the pid, and the trace is as in `loadPathShaStep_trace`. -/
theorem LoadProcessStat_ok (fs : ProcFS) (pid : Int) (proc : Process)
    (tr : List String) (h : LoadProcessStat fs pid = .ok (proc, tr)) :
    proc.ID = pid ∧
    tr = (match fs.readlinkExe pid with
          | .ok q => if q = "" then [] else [q]
          | .error _ => []) := by
  unfold LoadProcessStat at h
  cases hn : loadNameStep fs pid with
  | error u => cases u; rw [hn] at h; simp at h
  | ok triple =>
    obtain ⟨name, hasPerm, isK⟩ := triple
    rw [hn] at h
    cases hp : loadPathShaStep fs pid with
    | error u => cases u; rw [hp] at h; simp at h
    | ok t3 =>
      obtain ⟨path, sha, tr'⟩ := t3
      rw [hp] at h
      simp only [Except.ok.injEq, Prod.mk.injEq] at h
      obtain ⟨hproc, htr⟩ := h
      constructor
      · rw [← hproc]
      · rw [← htr]
        exact loadPathShaStep_trace fs pid path sha tr' hp

/-- How often a non-empty path `p` appears in one process's hash-call
trace: once if the process's exe link resolves to `p`, otherwise not. -/
theorem LoadProcessStat_count (fs : ProcFS) (pid : Int) (proc : Process)
    (tr : List String) (p : String) (hp : p ≠ "")
    (h : LoadProcessStat fs pid = .ok (proc, tr)) :
    tr.count p = if resolvesTo fs p pid then 1 else 0 := by
  rw [(LoadProcessStat_ok fs pid proc tr h).2]
  unfold resolvesTo
  cases he : fs.readlinkExe pid with
  | error e => simp
  | ok q =>
    by_cases hq : q = ""
    · subst hq
      have : ¬("" = p) := fun hh => hp hh.symm
      simp [this]
    · simp only [hq, if_false]
      by_cases hqp : q = p
      · subst hqp; simp [List.count_cons]
      · simp [List.count_cons, hqp]

/-- Counting hash calls across the whole loading loop: the trace counts
`p` once per pid whose exe link resolves to `p`. -/
theorem loadLoop_count (fs : ProcFS) (p : String) (hp : p ≠ "") :
    ∀ (pids : List Int) (acc : Processes) (tr0 : List String)
      (m : Processes) (tr : List String),
      loadLoop fs pids acc tr0 = .ok (m, tr) →
      tr.count p = tr0.count p + pids.countP (fun i => resolvesTo fs p i) := by
  intro pids
  induction pids with
  | nil =>
    intro acc tr0 m tr h
    simp only [loadLoop, Except.ok.injEq, Prod.mk.injEq] at h
    rw [← h.2]
    simp
  | cons q rest ih =>
    intro acc tr0 m tr h
    simp only [loadLoop] at h
    cases hls : LoadProcessStat fs q with
    | error u => cases u; rw [hls] at h; simp at h
    | ok pt =>
      obtain ⟨proc, t⟩ := pt
      rw [hls] at h
      have hrec := ih (pinsert acc q proc) (tr0 ++ t) m tr h
      rw [hrec, List.count_append,
          LoadProcessStat_count fs q proc t p hp hls, List.countP_cons]
      by_cases hr : resolvesTo fs p q
      · simp [hr]; omega
      · simp [hr]

/-- C2 (amended): there is no memoization — in one completed full scan
every non-empty executable path is content-hashed once per process that
resolves to it, so the hash count for a path equals the number of
processes sharing that path, not 1. -/
theorem C2_amended (fs : ProcFS) (li : LinuxInspector) (w : World)
    {li' : LinuxInspector} {w' : World} {tr : List String} {names : List String}
    (h : LoadProcesses fs li w = .ok li' w' tr)
    (hn : fs.rootDir = .ok names) (p : String) (hp : p ≠ "") :
    tr.count p = (collectPids names).countP (fun i => resolvesTo fs p i) := by
  unfold LoadProcesses getPIDsFromProcfs at h
  simp only [hn] at h
  cases hl : loadLoop fs (collectPids names) [] [] with
  | error u => cases u; simp only [hl] at h; cases h
  | ok et =>
    obtain ⟨entries, tr2⟩ := et
    simp only [hl] at h
    have htr : tr2 = tr := by
      by_cases hic : li.ignoreCache = true
      · rw [if_pos hic] at h
        cases h; rfl
      · rw [if_neg hic] at h
        by_cases hpk : fs.persistOk = true
        · rw [if_pos hpk] at h
          cases h; rfl
        · rw [if_neg hpk] at h
          cases h
    rw [← htr]
    have := loadLoop_count fs p hp (collectPids names) [] [] entries tr2 hl
    simpa using this

/-- C2 (witness): in the shared-path environment the scan completes, the
trace counts the shared path twice, and both enumerated pids resolve to
it. -/
theorem C2_amended_witness :
    (["/bin/sh", "/bin/sh"] : List String).count "/bin/sh" =
      (collectPids ["1", "2"]).countP (fun i => resolvesTo fsShared "/bin/sh" i) :=
  C2_amended fsShared li0 w0 rfl rfl "/bin/sh" (by decide)

/-- Whatever branch `LoadProcessStat` takes, the record it builds gets
`ID := pid`. -/
theorem LoadProcessStat_ID (fs : ProcFS) (pid : Int) (proc : Process)
    (tr : List String) (h : LoadProcessStat fs pid = .ok (proc, tr)) :
    proc.ID = pid :=
  (LoadProcessStat_ok fs pid proc tr h).1

/-- The loading loop preserves the key-equals-ID table invariant. -/
theorem loadLoop_ids (fs : ProcFS) :
    ∀ (pids : List Int) (acc : Processes) (tr0 : List String)
      (m : Processes) (tr : List String),
      loadLoop fs pids acc tr0 = .ok (m, tr) →
      (∀ (k : Int) (q : Process), plookup acc k = some q → q.ID = k) →
      ∀ (k : Int) (q : Process), plookup m k = some q → q.ID = k := by
  intro pids
  induction pids with
  | nil =>
    intro acc tr0 m tr h hacc
    simp only [loadLoop, Except.ok.injEq, Prod.mk.injEq] at h
    rw [← h.1]
    exact hacc
  | cons pid rest ih =>
    intro acc tr0 m tr h hacc
    simp only [loadLoop] at h
    cases hls : LoadProcessStat fs pid with
    | error u => cases u; rw [hls] at h; simp at h
    | ok pt =>
      obtain ⟨proc, t⟩ := pt
      rw [hls] at h
      refine ih (pinsert acc pid proc) (tr0 ++ t) m tr h ?_
      intro k q hk
      unfold pinsert plookup at hk
      by_cases hkp : k = pid
      · rw [if_pos hkp] at hk
        cases hk
        rw [hkp]
        exact LoadProcessStat_ID fs pid proc t hls
      · rw [if_neg hkp] at hk
        exact hacc k q hk

/-- C10: in every table produced by a completed live scan, each key maps
to a `Process` whose `ID` field equals that key. -/
theorem C10_key_eq_id (fs : ProcFS) (li : LinuxInspector) (w : World)
    {li' : LinuxInspector} {w' : World} {tr : List String}
    (h : LoadProcesses fs li w = .ok li' w' tr)
    (tbl : Processes) (ht : li'.ps = some tbl)
    (k : Int) (q : Process) (hk : plookup tbl k = some q) : q.ID = k := by
  unfold LoadProcesses getPIDsFromProcfs at h
  cases he : fs.rootDir with
  | error e => simp only [he] at h; cases h
  | ok names =>
    simp only [he] at h
    cases hl : loadLoop fs (collectPids names) [] [] with
    | error u => cases u; simp only [hl] at h; cases h
    | ok et =>
      obtain ⟨entries, tr2⟩ := et
      simp only [hl] at h
      have hents : li'.ps = some entries := by
        by_cases hic : li.ignoreCache = true
        · rw [if_pos hic] at h
          cases h; rfl
        · rw [if_neg hic] at h
          by_cases hpk : fs.persistOk = true
          · rw [if_pos hpk] at h
            cases h; rfl
          · rw [if_neg hpk] at h
            cases h
      rw [ht] at hents
      cases hents
      exact loadLoop_ids fs (collectPids names) [] [] tbl tr2 hl
        (fun k q hk => by simp [plookup] at hk) k q hk

/-- The process record the shared-path environment builds for `pid`. -/
def shProc (pid : Int) : Process where
  ID := pid
  BinarySHA := "sha256:SH"
  CommandName := "sh"
  CommandPath := "/bin/sh"
  FlagsAndArgs := ""
  ParentProcess := 0
  IsKernel := false
  HasPermission := true
  PType := ""
  OSSpecific := ProcessStat.zero

/-- The table the shared-path environment's scan produces. -/
def scanTbl : Processes := [(2, shProc 2), (1, shProc 1)]

/-- C10 (witness): in the concrete scan's table, the process stored
under key 2 carries ID 2. -/
theorem C10_key_eq_id_witness : (shProc 2).ID = 2 :=
  C10_key_eq_id fsShared li0 w0 rfl scanTbl rfl 2 (shProc 2) rfl

/-- C4 (amended): `LoadProcesses` returns an error exactly when the
process-info root cannot be enumerated, or when the scan completed
without a panic but the snapshot-persistence step (not bypassed and
failing) could not write the cache.  Per-process loading never causes
an error return (it can only panic). -/
theorem C4_amended (fs : ProcFS) (li : LinuxInspector) (w : World) :
    (LoadProcesses fs li w).isErrReturn = true ↔
      (exceptIsErr fs.rootDir = true ∨
       ((LoadProcesses fs li w).isPanic = false ∧
        li.ignoreCache = false ∧ fs.persistOk = false)) := by
  unfold LoadProcesses getPIDsFromProcfs exceptIsErr
  cases he : fs.rootDir with
  | error e => simp [LoadResult.isErrReturn]
  | ok names =>
    cases hl : loadLoop fs (collectPids names) [] [] with
    | error u =>
      cases u
      simp [hl, LoadResult.isErrReturn, LoadResult.isPanic]
    | ok et =>
      obtain ⟨entries, tr2⟩ := et
      by_cases hic : li.ignoreCache = true
      · simp [hl, hic, LoadResult.isErrReturn, LoadResult.isPanic]
      · rw [Bool.not_eq_true] at hic
        by_cases hpk : fs.persistOk = true
        · simp [hl, hic, hpk, LoadResult.isErrReturn, LoadResult.isPanic]
        · rw [Bool.not_eq_true] at hpk
          simp [hl, hic, hpk, LoadResult.isErrReturn, LoadResult.isPanic]

/-- C4 (witness): instantiating the characterization at the concrete
persist-failure environment. -/
theorem C4_amended_witness :
    exceptIsErr fsPersistFail.rootDir = true ∨
      ((LoadProcesses fsPersistFail li0 w0).isPanic = false ∧
       li0.ignoreCache = false ∧ fsPersistFail.persistOk = false) :=
  (C4_amended fsPersistFail li0 w0).mp rfl

/-- A successful `GetProcesses` leaves the returned table in the
in-memory tier of the returned inspector. -/
theorem GetProcesses_ok_ps (fs : ProcFS) (li : LinuxInspector) (w : World)
    (t : Processes) (li₁ : LinuxInspector) (w₁ : World)
    (h : GetProcesses fs li w = .ok t li₁ w₁) : li₁.ps = some t := by
  unfold GetProcesses at h
  generalize hg : (match li.ps, li.ignoreCache with
    | none, false => { li with ps := loadProcessesFromCache w }
    | _, _ => li) = li2 at h
  cases hps2 : li2.ps with
  | some t2 =>
    simp only [hps2] at h
    cases h
    exact hps2
  | none =>
    simp only [hps2] at h
    cases hlp : LoadProcesses fs li2 w with
    | errReturn li3 w3 tr3 => rw [hlp] at h; cases h
    | panicked => rw [hlp] at h; cases h
    | ok li3 w3 tr3 =>
      rw [hlp] at h
      cases hps3 : li3.ps with
      | none => simp only [hps3] at h; cases h
      | some t3 =>
        simp only [hps3] at h
        cases h
        exact hps3

/-- C8: if a `GetProcesses` call succeeds, any immediately following
`GetProcesses` on the returned store state — with no `LoadProcesses` in
between, and regardless of how the filesystem or snapshot have changed
meanwhile — returns the identical table from the in-memory tier and
changes nothing. -/
theorem C8_get_idempotent (fs : ProcFS) (li : LinuxInspector) (w : World)
    (t : Processes) (li₁ : LinuxInspector) (w₁ : World)
    (h : GetProcesses fs li w = .ok t li₁ w₁) :
    ∀ (fs' : ProcFS) (w' : World), GetProcesses fs' li₁ w' = .ok t li₁ w' := by
  intro fs' w'
  have h1 : li₁.ps = some t := GetProcesses_ok_ps fs li w t li₁ w₁ h
  unfold GetProcesses
  simp only [h1]

/-- The table stored in the snapshot for the C8 witness. -/
def cacheTbl : Processes := [(1, mkProc 1 0 "s" true)]

/-- C8 (witness): after a first successful call served from the
snapshot tier, the second call returns the identical table. -/
theorem C8_get_idempotent_witness :
    GetProcesses fsShared ⟨false, some cacheTbl⟩ ⟨some (some cacheTbl)⟩ =
      .ok cacheTbl ⟨false, some cacheTbl⟩ ⟨some (some cacheTbl)⟩ :=
  C8_get_idempotent fsShared li0 ⟨some (some cacheTbl)⟩ cacheTbl
    ⟨false, some cacheTbl⟩ ⟨some (some cacheTbl)⟩ rfl fsShared ⟨some (some cacheTbl)⟩

/-- C9: `ClearProcessCache` removes the snapshot file when it exists
(and removal succeeds), silently succeeds when no snapshot exists, and
never touches the inspector's in-memory table. -/
theorem C9_clear_cache (fs : ProcFS) (li : LinuxInspector) (w : World) :
    (∀ d, w.cacheFile = some d → fs.removeFail = false →
       (ClearProcessCache fs li w).1 = .ok () ∧
       (ClearProcessCache fs li w).2.2.cacheFile = none) ∧
    (w.cacheFile = none → ClearProcessCache fs li w = (.ok (), li, w)) ∧
    (ClearProcessCache fs li w).2.1 = li := by
  refine ⟨?_, ?_, ?_⟩
  · intro d hd hrf
    unfold ClearProcessCache clearProcessCache
    rw [hd, hrf]
    exact ⟨rfl, rfl⟩
  · intro hd
    unfold ClearProcessCache clearProcessCache
    rw [hd]
  · unfold ClearProcessCache clearProcessCache
    cases w.cacheFile with
    | none => rfl
    | some d =>
      by_cases hrf : fs.removeFail = true
      · rw [if_pos hrf]
      · rw [if_neg hrf]

/-- C9 (witness): clearing with no snapshot present succeeds and changes
nothing; clearing with a snapshot present removes the file. -/
theorem C9_clear_cache_witness :
    ClearProcessCache fsShared li0 ⟨none⟩ = (.ok (), li0, (⟨none⟩ : World)) ∧
    (ClearProcessCache fsShared li0 ⟨some (some cacheTbl)⟩).2.2.cacheFile = none :=
  ⟨(C9_clear_cache fsShared li0 ⟨none⟩).2.1 rfl,
   ((C9_clear_cache fsShared li0 ⟨some (some cacheTbl)⟩).1 (some cacheTbl) rfl rfl).2⟩
